import Mathlib

/-!
Verification development for the paperless_ai_bridge synchronisation service
(`src/services/dms_rag_sync/SyncService.py` and the client models it uses).

The Python code is shallowly embedded: pure helpers become Lean functions,
the stateful per-document pipeline becomes a function from a collaborator
oracle (embedding / vector-store results) to an outcome together with the
ordered list of collaborator calls it issues.  Python `int | None` fields
are `Option Int`, Python truthiness of such fields is modelled explicitly,
and Python values whose runtime type matters (`str` vs `int` document ids)
are modelled by the `PyVal` type, on which equality is type-sensitive
exactly as in Python.
-/

namespace PaperlessBridge

/-! ## Byte and word helpers (for hashlib.sha256 / uuid.uuid5 models) -/

/-- Truncation to a 32-bit machine word, `n % 2^32`. -/
def w32 (n : Nat) : Nat := n % 4294967296

/-- Right rotation of a 32-bit word. -/
def rotr32 (x n : Nat) : Nat := w32 ((x >>> n) ||| (x <<< (32 - n)))

/-- Left rotation of a 32-bit word. -/
def rotl32 (x n : Nat) : Nat := w32 ((x <<< n) ||| (x >>> (32 - n)))

/-- Big-endian byte serialisation of `v` into `n` bytes. -/
def bytesBE (n : Nat) (v : Nat) : List Nat :=
  (List.range n).map (fun i => (v >>> (8 * (n - 1 - i))) % 256)

/-- UTF-8 encoding of one code point, as `str.encode()` produces. -/
def utf8EncodeCharNat (c : Char) : List Nat :=
  let n := c.toNat
  if n < 0x80 then [n]
  else if n < 0x800 then [0xC0 ||| (n >>> 6), 0x80 ||| (n &&& 0x3F)]
  else if n < 0x10000 then
    [0xE0 ||| (n >>> 12), 0x80 ||| ((n >>> 6) &&& 0x3F), 0x80 ||| (n &&& 0x3F)]
  else
    [0xF0 ||| (n >>> 18), 0x80 ||| ((n >>> 12) &&& 0x3F),
     0x80 ||| ((n >>> 6) &&& 0x3F), 0x80 ||| (n &&& 0x3F)]

/-- UTF-8 bytes of a string (model of Python `s.encode()`). -/
def utf8Bytes (s : String) : List Nat := s.data.flatMap utf8EncodeCharNat

/-- Split a list into consecutive groups of `n` elements (last group may be
shorter).  Models both Python slicing loops used in the source: the 16-word
hash blocks and the `UPSERT_BATCH_SIZE` upsert batching. -/
def groupsOf (n : Nat) (l : List α) : List (List α) :=
  match l with
  | [] => []
  | x :: xs =>
      if n = 0 then []
      else (x :: xs).take n :: groupsOf n ((x :: xs).drop n)
termination_by l.length
decreasing_by
  simp only [List.length_drop, List.length_cons]
  omega

/-- MD-style padding shared by SHA-256 and SHA-1: append `0x80`, zero bytes
to 56 mod 64, then the 64-bit big-endian bit length. -/
def mdPad (msg : List Nat) : List Nat :=
  let L := msg.length
  let padZeros := (55 + 64 - (L % 64)) % 64
  msg ++ [0x80] ++ List.replicate padZeros 0 ++ bytesBE 8 (8 * L)

/-- Assemble big-endian 32-bit words from bytes. -/
def toWordsBE : List Nat → List Nat
  | b0 :: b1 :: b2 :: b3 :: rest =>
      ((b0 <<< 24) ||| (b1 <<< 16) ||| (b2 <<< 8) ||| b3) :: toWordsBE rest
  | _ => []

/-! ## SHA-256 (model of `hashlib.sha256(...).hexdigest()`) -/

/-- SHA-256 round constants (decimal rendering of the FIPS 180-4 words). -/
def sha256K : List Nat :=
  [1116352408, 1899447441, 3049323471, 3921009573, 961987163,
   1508970993, 2453635748, 2870763221, 3624381080, 310598401,
   607225278, 1426881987, 1925078388, 2162078206, 2614888103,
   3248222580, 3835390401, 4022224774, 264347078, 604807628,
   770255983, 1249150122, 1555081692, 1996064986, 2554220882,
   2821834349, 2952996808, 3210313671, 3336571891, 3584528711,
   113926993, 338241895, 666307205, 773529912, 1294757372,
   1396182291, 1695183700, 1986661051, 2177026350, 2456956037,
   2730485921, 2820302411, 3259730800, 3345764771, 3516065817,
   3600352804, 4094571909, 275423344, 430227734, 506948616,
   659060556, 883997877, 958139571, 1322822218, 1537002063,
   1747873779, 1955562222, 2024104815, 2227730452, 2361852424,
   2428436474, 2756734187, 3204031479, 3329325298]

/-- SHA-256 initial hash state (decimal rendering). -/
def sha256H0 : List Nat :=
  [1779033703, 3144134277, 1013904242, 2773480762, 1359893119,
   2600822924, 528734635, 1541459225]

/-- Small sigma 0 of the SHA-256 message schedule. -/
def ssig0 (x : Nat) : Nat := (rotr32 x 7) ^^^ (rotr32 x 18) ^^^ (x >>> 3)

/-- Small sigma 1 of the SHA-256 message schedule. -/
def ssig1 (x : Nat) : Nat := (rotr32 x 17) ^^^ (rotr32 x 19) ^^^ (x >>> 10)

/-- Big sigma 0 of the SHA-256 compression function. -/
def bsig0 (x : Nat) : Nat := (rotr32 x 2) ^^^ (rotr32 x 13) ^^^ (rotr32 x 22)

/-- Big sigma 1 of the SHA-256 compression function. -/
def bsig1 (x : Nat) : Nat := (rotr32 x 6) ^^^ (rotr32 x 11) ^^^ (rotr32 x 25)

/-- Extend the 16 block words by `fuel` scheduled words. -/
def sha256Extend (ws : List Nat) : Nat → List Nat
  | 0 => ws
  | f + 1 =>
      let ws' := sha256Extend ws f
      let n := ws'.length
      ws' ++ [w32 (ws'.getD (n - 16) 0 + ssig0 (ws'.getD (n - 15) 0) +
                   ws'.getD (n - 7) 0 + ssig1 (ws'.getD (n - 2) 0))]

/-- One SHA-256 compression round on the 8-word state. -/
def sha256Round (st : List Nat) (k w : Nat) : List Nat :=
  let a := st.getD 0 0
  let b := st.getD 1 0
  let c := st.getD 2 0
  let d := st.getD 3 0
  let e := st.getD 4 0
  let f := st.getD 5 0
  let g := st.getD 6 0
  let h := st.getD 7 0
  let ch := (e &&& f) ^^^ ((e ^^^ 4294967295) &&& g)
  let temp1 := w32 (h + bsig1 e + ch + k + w)
  let maj := (a &&& b) ^^^ (a &&& c) ^^^ (b &&& c)
  let temp2 := w32 (bsig0 a + maj)
  [w32 (temp1 + temp2), a, b, c, w32 (d + temp1), e, f, g]

/-- Compress one 16-word block into the running state. -/
def sha256Block (H : List Nat) (block : List Nat) : List Nat :=
  let ws := sha256Extend block 48
  let st := (sha256K.zip ws).foldl (fun st kw => sha256Round st kw.1 kw.2) H
  (H.zip st).map (fun p => w32 (p.1 + p.2))

/-- SHA-256 digest of a byte list, as bytes. -/
def sha256Bytes (msg : List Nat) : List Nat :=
  let blocks := groupsOf 16 (toWordsBE (mdPad msg))
  (blocks.foldl sha256Block sha256H0).flatMap (bytesBE 4)

/-- One lowercase hex digit. -/
def hexDigit (n : Nat) : Char :=
  if n < 10 then Char.ofNat (48 + n) else Char.ofNat (87 + n)

/-- Two lowercase hex digits of a byte. -/
def byteToHex (b : Nat) : List Char := [hexDigit (b / 16), hexDigit (b % 16)]

/-- Lowercase hex string of a byte list. -/
def bytesToHex (bs : List Nat) : String := String.mk (bs.flatMap byteToHex)

/-- Model of `hashlib.sha256(s.encode()).hexdigest()`. -/
def sha256Hex (s : String) : String := bytesToHex (sha256Bytes (utf8Bytes s))

/-! ## SHA-1 and UUID5 (model of `uuid.uuid5(uuid.NAMESPACE_OID, name)`) -/

/-- Extend the 16 block words by `fuel` SHA-1 scheduled words. -/
def sha1Extend (ws : List Nat) : Nat → List Nat
  | 0 => ws
  | f + 1 =>
      let ws' := sha1Extend ws f
      let n := ws'.length
      ws' ++ [rotl32 ((ws'.getD (n - 3) 0) ^^^ (ws'.getD (n - 8) 0) ^^^
                      (ws'.getD (n - 14) 0) ^^^ (ws'.getD (n - 16) 0)) 1]

/-- One SHA-1 round; `iw` is the round index and scheduled word. -/
def sha1Round (st : List Nat) (iw : Nat × Nat) : List Nat :=
  let a := st.getD 0 0
  let b := st.getD 1 0
  let c := st.getD 2 0
  let d := st.getD 3 0
  let e := st.getD 4 0
  let fk : Nat × Nat :=
    if iw.1 < 20 then ((b &&& c) ||| ((b ^^^ 4294967295) &&& d), 1518500249)
    else if iw.1 < 40 then (b ^^^ c ^^^ d, 1859775393)
    else if iw.1 < 60 then ((b &&& c) ||| (b &&& d) ||| (c &&& d), 2400959708)
    else (b ^^^ c ^^^ d, 3395469782)
  [w32 (rotl32 a 5 + fk.1 + e + fk.2 + iw.2), a, rotl32 b 30, c, d]

/-- Compress one 16-word block into the running SHA-1 state. -/
def sha1Block (H : List Nat) (block : List Nat) : List Nat :=
  let ws := sha1Extend block 64
  let st := ws.enum.foldl sha1Round H
  (H.zip st).map (fun p => w32 (p.1 + p.2))

/-- SHA-1 digest of a byte list, as bytes. -/
def sha1Bytes (msg : List Nat) : List Nat :=
  let blocks := groupsOf 16 (toWordsBE (mdPad msg))
  let H0 : List Nat := [1732584193, 4023233417, 2562383102, 271733878, 3285377520]
  (blocks.foldl sha1Block H0).flatMap (bytesBE 4)

/-- The 16 bytes of `uuid.NAMESPACE_OID` (decimal rendering). -/
def NAMESPACE_OID_BYTES : List Nat :=
  [107, 167, 184, 18, 157, 173, 17, 209, 128, 180, 0, 192, 79, 212, 48, 200]

/-- Model of `str(uuid.uuid5(uuid.NAMESPACE_OID, name))`: SHA-1 of the
namespace bytes followed by the UTF-8 name, truncated to 16 bytes with the
version and variant bits set, rendered 8-4-4-4-12. -/
def uuid5_oid (name : String) : String :=
  let d := (sha1Bytes (NAMESPACE_OID_BYTES ++ utf8Bytes name)).take 16
  let b := (d.take 6) ++
           [((d.getD 6 0) &&& 0x0f) ||| 0x50, d.getD 7 0,
            ((d.getD 8 0) &&& 0x3f) ||| 0x80] ++ d.drop 9
  String.mk ((b.take 4).flatMap byteToHex ++ '-' ::
             (((b.drop 4).take 2).flatMap byteToHex ++ '-' ::
              (((b.drop 6).take 2).flatMap byteToHex ++ '-' ::
               (((b.drop 8).take 2).flatMap byteToHex ++ '-' ::
                (b.drop 10).flatMap byteToHex))))

/-! ## Module constants of `SyncService.py` -/

/-- Characters per text chunk. -/
def CHUNK_SIZE : Nat := 1000

/-- Character overlap between consecutive chunks. -/
def CHUNK_OVERLAP : Nat := 100

/-- Maximum points per upsert call. -/
def UPSERT_BATCH_SIZE : Nat := 100

/-! ## Chunker (`_split_text`) -/

/-- The `while start < len(text)` loop of `_split_text`, over code points.
Each iteration takes the window `text[start:min(start + CHUNK_SIZE, len)]`;
when the window reaches the end the loop stops, otherwise the offset
advances to `end - CHUNK_OVERLAP`. -/
def splitGo (text : List Char) (start : Nat) : List (List Char) :=
  if _h : start < text.length then
    let stop := min (start + CHUNK_SIZE) text.length
    let chunk := (text.drop start).take (stop - start)
    if _h2 : stop ≥ text.length then [chunk]
    else chunk :: splitGo text (stop - CHUNK_OVERLAP)
  else []
termination_by text.length - start
decreasing_by
  unfold stop at _h2
  simp only [CHUNK_SIZE, CHUNK_OVERLAP] at _h2 ⊢
  omega

/-- Model of `_split_text`: empty text yields no chunks (`if not text`),
otherwise the overlap loop runs from offset 0. -/
def split_text (text : String) : List String :=
  if text.data.isEmpty then [] else (splitGo text.data 0).map String.mk

/-! ## Fingerprinter (`_compute_doc_hash`) and document model -/

/-- Python `str(x or "")` for an `int | None` field: `None` and `0` are
falsy and serialize to the empty string. -/
def pyStrIntOrEmpty : Option Int → String
  | none => ""
  | some n => if n = 0 then "" else toString n

/-- `TagDetails` (shared/clients/dms/models/Tag.py), the fields read here. -/
structure TagDetails where
  id : Int
  name : Option String := none
deriving DecidableEq, Repr

/-- `CorrespondentDetails` (models/Correspondent.py), the fields read here. -/
structure CorrespondentDetails where
  id : Int
  name : Option String := none
deriving DecidableEq, Repr

/-- `OwnerDetails` (models/Owner.py), the fields read here. -/
structure OwnerDetails where
  id : Int
  username : Option String := none
deriving DecidableEq, Repr

/-- `DocumentTypeDetails` (models/DocumentType.py), the fields read here. -/
structure DocumentTypeDetails where
  id : Int
  name : Option String := none
deriving DecidableEq, Repr

/-- `DocumentHighDetails` (shared/clients/dms/models/Document.py): `id` is
an `int`, the optional `int | None` ids are `Option Int`, and
`created_date` is kept as its ISO rendering since only
`created_date.isoformat()` is consumed. -/
structure DocumentHighDetails where
  id : Int
  title : Option String := none
  content : Option String := none
  tag_ids : List Int := []
  correspondent_id : Option Int := none
  document_type_id : Option Int := none
  owner_id : Option Int := none
  created_date : Option String := none
  correspondent : Option CorrespondentDetails := none
  owner : Option OwnerDetails := none
  tags : List TagDetails := []
  document_type : Option DocumentTypeDetails := none
deriving DecidableEq, Repr

/-- The `"|".join(parts)` input of `_compute_doc_hash`: content, title,
owner id, sorted tag ids, correspondent id, document type id, with absent
(falsy) fields as the empty string and tag ids rendered then sorted as
strings. -/
def compute_doc_hash_input (doc : DocumentHighDetails) : String :=
  String.intercalate "|" [
    doc.content.getD "",
    doc.title.getD "",
    pyStrIntOrEmpty doc.owner_id,
    String.intercalate ","
      (List.insertionSort (fun a b : String => a ≤ b) (doc.tag_ids.map toString)),
    pyStrIntOrEmpty doc.correspondent_id,
    pyStrIntOrEmpty doc.document_type_id]

/-- Model of `_compute_doc_hash`: SHA-256 hex digest of the joined parts. -/
def compute_doc_hash (doc : DocumentHighDetails) : String :=
  sha256Hex (compute_doc_hash_input doc)

/-- Model of `_make_point_id`: UUID5 of `f"{engine}:{doc_id}:{chunk_index}"`
in the OID namespace.  `_sync_document` passes the integer `doc.id`. -/
def make_point_id (engine : String) (doc_id : Int) (chunk_index : Nat) : String :=
  uuid5_oid (engine ++ ":" ++ toString doc_id ++ ":" ++ toString chunk_index)

/-! ## Python value model and collaborator oracle -/

/-- A Python runtime value in positions where the code mixes `str` and
`int` (document ids in payloads, filters and sets).  Equality is
type-sensitive, as in Python, so `vstr "1" ≠ vint 1`. -/
inductive PyVal where
  | vint (n : Int)
  | vstr (s : String)
deriving DecidableEq, Repr

/-- Python `str(v)`. -/
def pyStr : PyVal → String
  | .vint n => toString n
  | .vstr s => s

/-- The filter of `do_delete_points_by_filter`: must-match conditions on
`dms_engine` and `dms_doc_id`. -/
structure DeleteFilter where
  dms_engine : String
  dms_doc_id : PyVal
deriving DecidableEq, Repr

/-- `VectorPoint` (shared/clients/rag/models/VectorPoint.py) with its
declared pydantic field types: `dms_doc_id` and `owner_id` are `str`,
`label_ids` is `list[str]`, `category_id`/`type_id` are `str | None`. -/
structure VectorPoint where
  dms_engine : String
  dms_doc_id : String
  chunk_index : Nat
  title : String
  owner_id : String
  created : Option String
  chunk_text : Option String
  label_ids : List String
  label_names : List String
  category_id : Option String
  category_name : Option String
  type_id : Option String
  type_name : Option String
  owner_username : Option String
  content_hash : Option String
deriving DecidableEq, Repr

/-- pydantic-v2 validation of a `str`-declared field: v2 does not coerce
numbers to strings, so an `int` input raises. -/
def pyFieldStr (field : String) : PyVal → Except String String
  | PyVal.vstr s => Except.ok s
  | PyVal.vint _ => Except.error (field ++ ": Input should be a valid string")

/-- pydantic-v2 validation of a `str | None` field. -/
def pyFieldStrOpt (field : String) : Option PyVal → Except String (Option String)
  | none => Except.ok none
  | some v =>
      match pyFieldStr field v with
      | Except.error e => Except.error e
      | Except.ok s => Except.ok (some s)

/-- pydantic-v2 validation of a `list[str]` field, item by item. -/
def pyFieldStrList (field : String) : List PyVal → Except String (List String)
  | [] => Except.ok []
  | v :: vs =>
      match pyFieldStr field v with
      | Except.error e => Except.error e
      | Except.ok s =>
          match pyFieldStrList field vs with
          | Except.error e => Except.error e
          | Except.ok ss => Except.ok (s :: ss)

/-- Model of the `VectorPoint(...)` constructor call in `_sync_document`:
pydantic validates the passed values against the declared field types, and
the construction raises when a typed check fails (pydantic aggregates all
field errors into one `ValidationError`; here the first failing field in
declaration order names the error, which callers treat as opaque).  The
dynamically typed arguments are taken as `PyVal` so that the `int` values
actually passed by the source are represented honestly. -/
def VectorPoint_validate (dms_engine : String) (dms_doc_id : PyVal)
    (chunk_index : Nat) (title : String) (owner_id : Option PyVal)
    (created : Option String) (chunk_text : Option String)
    (label_ids : List PyVal) (label_names : List String)
    (category_id : Option PyVal) (category_name : Option String)
    (type_id : Option PyVal) (type_name : Option String)
    (owner_username : Option String) (content_hash : Option String) :
    Except String VectorPoint :=
  match pyFieldStr "dms_doc_id" dms_doc_id with
  | Except.error e => Except.error e
  | Except.ok sdoc =>
      match (match owner_id with
             | some v => pyFieldStr "owner_id" v
             | none => Except.error "owner_id: Input should be a valid string") with
      | Except.error e => Except.error e
      | Except.ok sowner =>
          match pyFieldStrList "label_ids" label_ids with
          | Except.error e => Except.error e
          | Except.ok sids =>
              match pyFieldStrOpt "category_id" category_id with
              | Except.error e => Except.error e
              | Except.ok scat =>
                  match pyFieldStrOpt "type_id" type_id with
                  | Except.error e => Except.error e
                  | Except.ok styp =>
                      Except.ok
                        { dms_engine := dms_engine
                          dms_doc_id := sdoc
                          chunk_index := chunk_index
                          title := title
                          owner_id := sowner
                          created := created
                          chunk_text := chunk_text
                          label_ids := sids
                          label_names := label_names
                          category_id := scat
                          category_name := category_name
                          type_id := styp
                          type_name := type_name
                          owner_username := owner_username
                          content_hash := content_hash }

/-- One point dict of the upsert payload. -/
structure Point where
  id : String
  vector : List Int
  payload : VectorPoint
deriving DecidableEq, Repr

/-- One point of a scroll result: the projected payload fields (either may
be missing from the payload dict). -/
structure ScrollPoint where
  dms_doc_id : Option PyVal := none
  content_hash : Option String := none
deriving DecidableEq, Repr

/-- A collaborator call issued by the sync pipeline, in issue order. -/
inductive Event where
  | embedCall (texts : List String)
  | deleteCall (f : DeleteFilter)
  | upsertCall (points : List Point)
deriving DecidableEq, Repr

/-- Results of the external collaborators for one pass: what the embedding
client, the delete endpoint, the upsert endpoint and the two payload
scrolls return.  `Except.error` models a raised exception. -/
structure Oracle where
  embed : List String → Except String (List (List Int))
  deletePoints : DeleteFilter → Except String Unit
  upsert : List Point → Except String Unit
  scrollHashes : Except String (List ScrollPoint)
  scrollDocIds : Except String (List ScrollPoint)

/-- Terminal outcome of `_sync_document` as seen through
`asyncio.gather(..., return_exceptions=True)`: `True`, `False`, or a
propagated exception. -/
inductive SyncOutcome where
  | synced
  | skipped
  | error (e : String)
deriving DecidableEq, Repr

/-! ## Validation and per-document pipeline -/

/-- Python truthiness of an `int | None` field (`not doc.owner_id`). -/
def intFalsy : Option Int → Bool
  | none => true
  | some n => n == 0

/-- Python truthiness of a `str | None` field (`not doc.content`). -/
def strFalsy : Option String → Bool
  | none => true
  | some s => s.data.isEmpty

/-- Model of Python `s.strip()`: drop whitespace from both ends (the
whitespace class is Lean's `Char.isWhitespace`; only emptiness of the
result is consumed by the validator). -/
def pyStrip (s : String) : String :=
  String.mk (((s.data.dropWhile Char.isWhitespace).reverse.dropWhile
    Char.isWhitespace).reverse)

/-- Model of `_delete_document_vectors`: issue one delete scoped to
(engine, doc id); an exception from the client is logged and swallowed, so
both result branches yield the same issued-call trace and no error. -/
def delete_document_vectors (o : Oracle) (engine : String) (doc_id : PyVal) : List Event :=
  match o.deletePoints ⟨engine, doc_id⟩ with
  | Except.ok _ => [Event.deleteCall ⟨engine, doc_id⟩]
  | Except.error _ => [Event.deleteCall ⟨engine, doc_id⟩]

/-- Model of `_validate_document`: the three eligibility checks in order
(owner id truthy, content non-blank after strip, chunking non-empty); on
the first failure the document's existing vectors are deleted and `none`
is returned; on success the chunks are returned with no calls issued. -/
def validate_document (o : Oracle) (engine : String) (doc : DocumentHighDetails) :
    Option (List String) × List Event :=
  if intFalsy doc.owner_id then
    (none, delete_document_vectors o engine (PyVal.vint doc.id))
  else if strFalsy doc.content || (pyStrip (doc.content.getD "")).data.isEmpty then
    (none, delete_document_vectors o engine (PyVal.vint doc.id))
  else
    let chunks := split_text (doc.content.getD "")
    if chunks.isEmpty then
      (none, delete_document_vectors o engine (PyVal.vint doc.id))
    else (some chunks, [])

/-- Python dict assignment `m[k] = v` on a string-keyed dict. -/
def dictSet (m : List (String × String)) (k v : String) : List (String × String) :=
  (k, v) :: m.filter (fun kv => kv.1 != k)

/-- Python dict lookup `m.get(k)`. -/
def dictGet (m : List (String × String)) (k : String) : Option String :=
  (m.find? (fun kv => kv.1 == k)).map (fun kv => kv.2)

/-- Model of `_load_rag_hashes`: scroll all points of the engine projecting
`dms_doc_id` and `content_hash` (the engine filter is part of the oracle's
scroll); on a scroll exception return the empty map so that every document
is treated as changed; otherwise keep every point carrying both fields,
keyed by `str(doc_id)`. -/
def load_rag_hashes (o : Oracle) : List (String × String) :=
  match o.scrollHashes with
  | Except.error _ => []
  | Except.ok pts =>
      pts.foldl (fun m p =>
        match p.dms_doc_id, p.content_hash with
        | some d, some h => dictSet m (pyStr d) h
        | _, _ => m) []

/-- One iteration of the point-building loop: the `VectorPoint(...)` call
with exactly the values `_sync_document` passes — the integer `doc.id`,
`doc.owner_id`, `doc.tag_ids`, `doc.correspondent_id` and
`doc.document_type_id` flow into the `str`-typed payload fields as
`PyVal.vint` values. -/
def build_point (engine : String) (doc : DocumentHighDetails)
    (current_hash : String) (chunk_index : Nat) (chunk : String)
    (vector : List Int) : Except String Point :=
  match VectorPoint_validate engine (PyVal.vint doc.id) chunk_index
      (doc.title.getD "") (doc.owner_id.map PyVal.vint) doc.created_date
      (some chunk) (doc.tag_ids.map PyVal.vint)
      (doc.tags.filterMap (fun t =>
        match t.name with
        | some n => if n.isEmpty then none else some n
        | none => none))
      (doc.correspondent_id.map PyVal.vint)
      (doc.correspondent.bind (fun c => c.name))
      (doc.document_type_id.map PyVal.vint)
      (doc.document_type.bind (fun t => t.name))
      (doc.owner.bind (fun ow => ow.username))
      (some current_hash) with
  | Except.error e => Except.error e
  | Except.ok payload =>
      Except.ok { id := make_point_id engine doc.id chunk_index
                  vector := vector
                  payload := payload }

/-- The point-building loop over `enumerate(zip(chunks, vectors))`: the
first raising constructor call aborts the loop (in the source the
exception propagates out of `_sync_document` before any upsert). -/
def build_points_go (engine : String) (doc : DocumentHighDetails)
    (current_hash : String) : List (Nat × (String × List Int)) →
    Except String (List Point)
  | [] => Except.ok []
  | ci :: rest =>
      match build_point engine doc current_hash ci.1 ci.2.1 ci.2.2 with
      | Except.error e => Except.error e
      | Except.ok p =>
          match build_points_go engine doc current_hash rest with
          | Except.error e => Except.error e
          | Except.ok ps => Except.ok (p :: ps)

/-- The point-building stage of `_sync_document`: one point per
(chunk, vector) pair of `zip(chunks, vectors)`, or the pydantic
validation error raised by the first constructor call. -/
def build_points (engine : String) (doc : DocumentHighDetails)
    (chunks : List String) (vectors : List (List Int)) (current_hash : String) :
    Except String (List Point) :=
  build_points_go engine doc current_hash (chunks.zip vectors).enum

/-- The batched upsert loop of `_sync_document`: upsert the consecutive
`UPSERT_BATCH_SIZE` slices sequentially, stopping at the first failure. -/
def upsert_batches (o : Oracle) : List (List Point) → Except String Unit × List Event
  | [] => (Except.ok (), [])
  | b :: bs =>
      match o.upsert b with
      | Except.error e => (Except.error e, [Event.upsertCall b])
      | Except.ok _ =>
          let r := upsert_batches o bs
          (r.1, Event.upsertCall b :: r.2)

/-- Model of `_sync_document`: validate, compare the fingerprint against
the pre-loaded map under the key `str(doc.id)`, then embed, delete stale
points scoped to (engine, doc id), build the payload points (whose
pydantic constructor may raise) and upsert in batches; an embedding,
delete, point-construction or upsert failure aborts the document with
that error.  The returned list is every collaborator call issued for this
document, in issue order. -/
def sync_document (o : Oracle) (engine : String)
    (rag_hashes : List (String × String)) (doc : DocumentHighDetails) :
    SyncOutcome × List Event :=
  match validate_document o engine doc with
  | (none, tr) => (SyncOutcome.skipped, tr)
  | (some chunks, tr) =>
      let current_hash := compute_doc_hash doc
      if dictGet rag_hashes (toString doc.id) = some current_hash then
        (SyncOutcome.skipped, tr)
      else
        match o.embed chunks with
        | Except.error e => (SyncOutcome.error e, tr ++ [Event.embedCall chunks])
        | Except.ok vectors =>
            match o.deletePoints ⟨engine, PyVal.vint doc.id⟩ with
            | Except.error e =>
                (SyncOutcome.error e,
                 tr ++ [Event.embedCall chunks,
                        Event.deleteCall ⟨engine, PyVal.vint doc.id⟩])
            | Except.ok _ =>
                match build_points engine doc chunks vectors current_hash with
                | Except.error e =>
                    (SyncOutcome.error e,
                     tr ++ [Event.embedCall chunks,
                            Event.deleteCall ⟨engine, PyVal.vint doc.id⟩])
                | Except.ok points =>
                    let up := upsert_batches o (groupsOf UPSERT_BATCH_SIZE points)
                    (match up.1 with
                     | Except.error e => SyncOutcome.error e
                     | Except.ok _ => SyncOutcome.synced,
                     tr ++ Event.embedCall chunks ::
                           Event.deleteCall ⟨engine, PyVal.vint doc.id⟩ :: up.2)

/-! ## Orphan reconciliation and the full pass -/

/-- Model of `_cleanup_orphans`: scroll the engine's points projecting
`dms_doc_id` (a scan failure aborts the whole reconciliation with no
deletes); collect the distinct values of `str(doc_id)` as Python strings;
subtract the given `dms_ids` set, whose elements keep their own Python
runtime type; issue one scoped delete per remaining orphan id (per-delete
failures are swallowed, so every orphan is attempted). -/
def cleanup_orphans (o : Oracle) (engine : String) (dms_ids : List PyVal) : List Event :=
  match o.scrollDocIds with
  | Except.error _ => []
  | Except.ok pts =>
      let rag_doc_ids :=
        ((pts.filterMap (fun p => p.dms_doc_id)).map
          (fun v => PyVal.vstr (pyStr v))).dedup
      let orphan_ids := rag_doc_ids.filter (fun v => !(dms_ids.contains v))
      orphan_ids.map (fun v => Event.deleteCall ⟨engine, v⟩)

/-- Summary of one `do_sync` pass over a (source, target) pair. -/
structure SyncPassResult where
  results : List (SyncOutcome × List Event)
  synced : Nat
  skipped : Nat
  errors : Nat
  cleanupEvents : List Event
deriving DecidableEq, Repr

/-- Model of `do_sync` for one (DMS, RAG) pair: enumerate the enriched
documents (an empty enumeration returns early), pre-load the fingerprint
map once, run every document through `_sync_document` with per-document
outcome collection (`asyncio.gather` with `return_exceptions=True`: an
exception becomes that document's result value and cancels nothing else),
count the outcomes, and reconcile orphans against the set `{doc.id}` of
enumerated integer document ids. -/
def do_sync (o : Oracle) (engine : String) (docs : List DocumentHighDetails) :
    SyncPassResult :=
  if docs.isEmpty then ⟨[], 0, 0, 0, []⟩
  else
    let rag_hashes := load_rag_hashes o
    let results := docs.map (fun doc => sync_document o engine rag_hashes doc)
    let synced := (results.filter (fun r => r.1 == SyncOutcome.synced)).length
    let skipped := (results.filter (fun r => r.1 == SyncOutcome.skipped)).length
    let errors := (results.filter (fun r =>
      match r.1 with | SyncOutcome.error _ => true | _ => false)).length
    let dms_ids := docs.map (fun doc => PyVal.vint doc.id)
    ⟨results, synced, skipped, errors, cleanup_orphans o engine dms_ids⟩

/-! ## Derived notions used by the statements -/

/-- The unique (non-overlapping) spans of a chunk list: the first chunk
whole, every later chunk minus the `CHUNK_OVERLAP` characters it shares
with its predecessor. -/
def uniqueSpans (cs : List (List Char)) : List Char :=
  match cs with
  | [] => []
  | c :: rest => c ++ (rest.map (fun d => d.drop CHUNK_OVERLAP)).flatten

/-- All points carried by the upsert calls of a trace, in order. -/
def upserted_points (evs : List Event) : List Point :=
  evs.flatMap (fun ev => match ev with | Event.upsertCall ps => ps | _ => [])

/-! ## Concrete collaborators and documents for closed instances -/

/-- An oracle on which every collaborator call succeeds. -/
def oracle_all_ok : Oracle where
  embed := fun ts => Except.ok (ts.map (fun _ => [0]))
  deletePoints := fun _ => Except.ok ()
  upsert := fun _ => Except.ok ()
  scrollHashes := Except.ok []
  scrollDocIds := Except.ok []

/-- An oracle whose delete endpoint always raises. -/
def oracle_delete_fails : Oracle :=
  { oracle_all_ok with deletePoints := fun _ => Except.error "delete failed" }

/-- An oracle whose hash-scroll raises. -/
def oracle_scroll_fails : Oracle :=
  { oracle_all_ok with scrollHashes := Except.error "scroll failed" }

/-- An oracle whose index holds points for document ids 1, 2 and 3. -/
def oracle_orphan_demo : Oracle :=
  { oracle_all_ok with
    scrollDocIds := Except.ok
      [⟨some (PyVal.vint 1), none⟩, ⟨some (PyVal.vint 2), none⟩,
       ⟨some (PyVal.vint 3), none⟩] }

/-- An oracle on which embedding fails exactly for the chunk list
`["alpha"]` and succeeds otherwise. -/
def oracle_embed_split : Oracle :=
  { oracle_all_ok with
    embed := fun ts =>
      if ts = ["alpha"] then Except.error "embed down"
      else Except.ok (ts.map (fun _ => [1])) }

/-- A document with no owner id. -/
def doc_no_owner : DocumentHighDetails := { id := 7, content := some "hello" }

/-- A valid document used for the unchanged-skip instance. -/
def doc_unchanged : DocumentHighDetails :=
  { id := 4, owner_id := some 1, content := some "hello world" }

/-- A fingerprint map already holding `doc_unchanged`'s fingerprint. -/
def rh_unchanged : List (String × String) :=
  [(toString doc_unchanged.id, compute_doc_hash doc_unchanged)]

/-- Document A of the isolation instance (embedding will fail on it). -/
def docA : DocumentHighDetails := { id := 1, owner_id := some 1, content := some "alpha" }

/-- Document B of the isolation instance (embedding succeeds on it). -/
def docB : DocumentHighDetails := { id := 3, owner_id := some 2, content := some "beta" }

/-- A document whose content is whitespace only. -/
def doc_ws : DocumentHighDetails := { id := 9, owner_id := some 1, content := some " " }

/-- First document of the fingerprint separator collision. -/
def doc_sep_a : DocumentHighDetails :=
  { id := 6, content := some "a|b", title := some "c", owner_id := some 1 }

/-- Second document of the fingerprint separator collision: different
content and title, same joined hash input. -/
def doc_sep_b : DocumentHighDetails :=
  { id := 6, content := some "a", title := some "b|c", owner_id := some 1 }

/-- A document with two tags, for the label-reordering instance. -/
def doc_tags : DocumentHighDetails :=
  { id := 6, owner_id := some 1, content := some "t", tag_ids := [2, 10] }

/-! ## Helper lemmas -/

theorem delete_document_vectors_eq (o : Oracle) (engine : String) (d : PyVal) :
    delete_document_vectors o engine d = [Event.deleteCall ⟨engine, d⟩] := by
  unfold delete_document_vectors
  cases o.deletePoints ⟨engine, d⟩ <;> rfl

theorem validate_document_none_trace (o : Oracle) (engine : String)
    (doc : DocumentHighDetails) (tr : List Event)
    (h : validate_document o engine doc = (none, tr)) :
    tr = [Event.deleteCall ⟨engine, PyVal.vint doc.id⟩] := by
  unfold validate_document at h
  dsimp only [] at h
  split at h
  · rw [delete_document_vectors_eq] at h
    exact (Prod.mk.injEq _ _ _ _ ▸ h).2.symm ▸ rfl
  · split at h
    · rw [delete_document_vectors_eq] at h
      cases h
      rfl
    · split at h
      · rw [delete_document_vectors_eq] at h
        cases h
        rfl
      · cases h

theorem validate_document_some_trace (o : Oracle) (engine : String)
    (doc : DocumentHighDetails) (ch : List String) (tr : List Event)
    (h : validate_document o engine doc = (some ch, tr)) :
    tr = [] := by
  unfold validate_document at h
  dsimp only [] at h
  split at h
  · rw [delete_document_vectors_eq] at h
    cases h
  · split at h
    · rw [delete_document_vectors_eq] at h
      cases h
    · split at h
      · rw [delete_document_vectors_eq] at h
        cases h
      · cases h
        rfl

theorem sync_document_validate_none (o : Oracle) (engine : String)
    (rh : List (String × String)) (doc : DocumentHighDetails) (tr : List Event)
    (h : validate_document o engine doc = (none, tr)) :
    sync_document o engine rh doc = (SyncOutcome.skipped, tr) := by
  unfold sync_document
  rw [h]

theorem sync_document_unchanged_eq (o : Oracle) (engine : String)
    (rh : List (String × String)) (doc : DocumentHighDetails)
    (ch : List String) (tr : List Event)
    (h : validate_document o engine doc = (some ch, tr))
    (hh : dictGet rh (toString doc.id) = some (compute_doc_hash doc)) :
    sync_document o engine rh doc = (SyncOutcome.skipped, tr) := by
  unfold sync_document
  rw [h]
  simp only [hh, if_pos]

theorem sync_document_embed_error (o : Oracle) (engine : String)
    (rh : List (String × String)) (doc : DocumentHighDetails)
    (ch : List String) (tr : List Event) (e : String)
    (h : validate_document o engine doc = (some ch, tr))
    (hne : dictGet rh (toString doc.id) ≠ some (compute_doc_hash doc))
    (he : o.embed ch = Except.error e) :
    sync_document o engine rh doc =
      (SyncOutcome.error e, tr ++ [Event.embedCall ch]) := by
  unfold sync_document
  rw [h]
  dsimp only []
  rw [if_neg hne, he]

theorem sync_document_delete_error (o : Oracle) (engine : String)
    (rh : List (String × String)) (doc : DocumentHighDetails)
    (ch : List String) (tr : List Event) (vs : List (List Int)) (e : String)
    (h : validate_document o engine doc = (some ch, tr))
    (hne : dictGet rh (toString doc.id) ≠ some (compute_doc_hash doc))
    (he : o.embed ch = Except.ok vs)
    (hd : o.deletePoints ⟨engine, PyVal.vint doc.id⟩ = Except.error e) :
    sync_document o engine rh doc =
      (SyncOutcome.error e,
       tr ++ [Event.embedCall ch, Event.deleteCall ⟨engine, PyVal.vint doc.id⟩]) := by
  unfold sync_document
  rw [h]
  dsimp only []
  rw [if_neg hne, he, hd]

theorem build_points_nil (engine : String) (doc : DocumentHighDetails)
    (chunks : List String) (vectors : List (List Int)) (current_hash : String)
    (h : chunks.zip vectors = []) :
    build_points engine doc chunks vectors current_hash = Except.ok [] := by
  unfold build_points
  rw [h]
  rfl

theorem build_points_raises (engine : String) (doc : DocumentHighDetails)
    (chunks : List String) (vectors : List (List Int)) (current_hash : String)
    (h : chunks.zip vectors ≠ []) :
    build_points engine doc chunks vectors current_hash =
      Except.error "dms_doc_id: Input should be a valid string" := by
  unfold build_points
  cases hz : chunks.zip vectors with
  | nil => exact absurd hz h
  | cons p ps => rfl

theorem sync_document_build_error (o : Oracle) (engine : String)
    (rh : List (String × String)) (doc : DocumentHighDetails)
    (ch : List String) (tr : List Event) (vs : List (List Int)) (e : String)
    (h : validate_document o engine doc = (some ch, tr))
    (hne : dictGet rh (toString doc.id) ≠ some (compute_doc_hash doc))
    (he : o.embed ch = Except.ok vs)
    (hd : o.deletePoints ⟨engine, PyVal.vint doc.id⟩ = Except.ok ())
    (hb : build_points engine doc ch vs (compute_doc_hash doc) = Except.error e) :
    sync_document o engine rh doc =
      (SyncOutcome.error e,
       tr ++ [Event.embedCall ch, Event.deleteCall ⟨engine, PyVal.vint doc.id⟩]) := by
  unfold sync_document
  rw [h]
  dsimp only []
  rw [if_neg hne, he, hd]
  dsimp only []
  rw [hb]

theorem sync_document_build_ok (o : Oracle) (engine : String)
    (rh : List (String × String)) (doc : DocumentHighDetails)
    (ch : List String) (tr : List Event) (vs : List (List Int)) (pts : List Point)
    (h : validate_document o engine doc = (some ch, tr))
    (hne : dictGet rh (toString doc.id) ≠ some (compute_doc_hash doc))
    (he : o.embed ch = Except.ok vs)
    (hd : o.deletePoints ⟨engine, PyVal.vint doc.id⟩ = Except.ok ())
    (hb : build_points engine doc ch vs (compute_doc_hash doc) = Except.ok pts) :
    sync_document o engine rh doc =
      (match (upsert_batches o (groupsOf UPSERT_BATCH_SIZE pts)).1 with
       | Except.error e => SyncOutcome.error e
       | Except.ok _ => SyncOutcome.synced,
       tr ++ Event.embedCall ch :: Event.deleteCall ⟨engine, PyVal.vint doc.id⟩ ::
         (upsert_batches o (groupsOf UPSERT_BATCH_SIZE pts)).2) := by
  unfold sync_document
  rw [h]
  dsimp only []
  rw [if_neg hne, he, hd]
  dsimp only []
  rw [hb]

theorem upsert_batches_ok_events (o : Oracle) (bs : List (List Point))
    (h : (upsert_batches o bs).1 = Except.ok ()) :
    (upsert_batches o bs).2 = bs.map Event.upsertCall := by
  induction bs with
  | nil => rfl
  | cons b rest ih =>
      unfold upsert_batches at h ⊢
      cases hb : o.upsert b with
      | error e => rw [hb] at h; cases h
      | ok _ =>
          rw [hb] at h
          dsimp only [] at h ⊢
          rw [ih h, List.map_cons]

theorem upserted_points_map_upsertCall (bs : List (List Point)) :
    upserted_points (bs.map Event.upsertCall) = bs.flatten := by
  induction bs with
  | nil => rfl
  | cons b rest ih =>
      simp only [List.map_cons, upserted_points, List.flatMap_cons] at ih ⊢
      rw [ih]
      rfl

theorem groupsOf_flatten {α : Type} (n : Nat) (hn : n ≠ 0) (l : List α) :
    (groupsOf n l).flatten = l := by
  generalize hk : l.length = k
  induction k using Nat.strong_induction_on generalizing l with
  | _ k ih =>
      cases l with
      | nil => simp [groupsOf]
      | cons x xs =>
          rw [groupsOf, if_neg hn]
          simp only [List.flatten_cons]
          rw [ih (((x :: xs).drop n).length) ?_ _ rfl]
          · exact List.take_append_drop n (x :: xs)
          · subst hk
            simp only [List.length_drop, List.length_cons]
            omega

theorem groupsOf_nil {α : Type} (n : Nat) : groupsOf n ([] : List α) = [] := by
  rw [groupsOf]

theorem groupsOf_cons {α : Type} (n : Nat) (x : α) (xs : List α) (h : n ≠ 0) :
    groupsOf n (x :: xs) = (x :: xs).take n :: groupsOf n ((x :: xs).drop n) := by
  rw [groupsOf, if_neg h]

theorem groupsOf_eq_single {α : Type} (n : Nat) (l : List α)
    (h1 : l ≠ []) (h2 : l.length ≤ n) (h3 : n ≠ 0) :
    groupsOf n l = [l] := by
  cases l with
  | nil => exact absurd rfl h1
  | cons x xs =>
      rw [groupsOf_cons n x xs h3, List.take_of_length_le h2,
          List.drop_eq_nil_of_le h2, groupsOf_nil]

theorem splitGo_stop (text : List Char) (start : Nat) (h : text.length ≤ start) :
    splitGo text start = [] := by
  rw [splitGo, dif_neg (by omega)]

theorem splitGo_last (text : List Char) (start : Nat)
    (h1 : start < text.length) (h2 : text.length ≤ start + CHUNK_SIZE) :
    splitGo text start = [text.drop start] := by
  rw [splitGo, dif_pos h1]
  dsimp only []
  rw [Nat.min_eq_right h2, dif_pos (Nat.le_refl _)]
  rw [List.take_of_length_le (by rw [List.length_drop])]

theorem splitGo_step (text : List Char) (start : Nat)
    (h2 : start + CHUNK_SIZE < text.length) :
    splitGo text start =
      (text.drop start).take CHUNK_SIZE ::
        splitGo text (start + CHUNK_SIZE - CHUNK_OVERLAP) := by
  rw [splitGo, dif_pos (by omega)]
  dsimp only []
  rw [Nat.min_eq_left (Nat.le_of_lt h2), dif_neg (by omega)]
  rw [Nat.add_sub_cancel_left]

theorem split_text_eq (text : String) :
    split_text text = (splitGo text.data 0).map String.mk := by
  unfold split_text
  cases htext : text.data with
  | nil => rw [splitGo_stop [] 0 (by simp)]; rfl
  | cons c cs => rfl

theorem split_text_short (text : String)
    (h1 : text.data ≠ []) (h2 : text.data.length ≤ CHUNK_SIZE) :
    split_text text = [text] := by
  rw [split_text_eq,
      splitGo_last text.data 0 (by cases htext : text.data with
        | nil => exact absurd htext h1
        | cons c cs => exact Nat.succ_pos _) (by omega)]
  rfl

theorem splitGo_ne_nil (text : List Char) (start : Nat) (h : start < text.length) :
    splitGo text start ≠ [] := by
  rw [splitGo, dif_pos h]
  dsimp only []
  split <;> simp

theorem chunk_drop_overlap (text : List Char) (start : Nat) :
    ((text.drop start).take CHUNK_SIZE).drop (CHUNK_SIZE - CHUNK_OVERLAP) =
      (text.drop (start + CHUNK_SIZE - CHUNK_OVERLAP)).take CHUNK_OVERLAP := by
  rw [List.drop_take, List.drop_drop]
  have h1 : CHUNK_SIZE - (CHUNK_SIZE - CHUNK_OVERLAP) = CHUNK_OVERLAP := by decide
  have h2 : start + (CHUNK_SIZE - CHUNK_OVERLAP) = start + CHUNK_SIZE - CHUNK_OVERLAP := by
    simp only [CHUNK_SIZE, CHUNK_OVERLAP]
    omega
  rw [h1, h2]

theorem splitGo_chunks_sound (text : List Char) (start : Nat) :
    ∀ c ∈ splitGo text start, c ≠ [] ∧ c.length ≤ CHUNK_SIZE := by
  generalize hk : text.length - start = k
  induction k using Nat.strong_induction_on generalizing start with
  | _ k ih =>
    by_cases h1 : start < text.length
    · by_cases h2 : text.length ≤ start + CHUNK_SIZE
      · rw [splitGo_last text start h1 h2]
        intro c hc
        rw [List.mem_singleton] at hc
        subst hc
        refine ⟨fun hnil => ?_, ?_⟩
        · have := congrArg List.length hnil
          simp only [List.length_drop, List.length_nil] at this
          omega
        · simp only [List.length_drop]
          omega
      · push_neg at h2
        rw [splitGo_step text start h2]
        intro c hc
        rcases List.mem_cons.mp hc with hceq | hmem
        · subst hceq
          refine ⟨fun hnil => ?_, ?_⟩
          · have := congrArg List.length hnil
            simp only [List.length_take, List.length_drop, List.length_nil] at this
            simp only [CHUNK_SIZE] at this h2
            omega
          · simp only [List.length_take]
            exact Nat.min_le_left _ _
        · refine ih (text.length - (start + CHUNK_SIZE - CHUNK_OVERLAP)) ?_ _ rfl c hmem
          simp only [CHUNK_SIZE, CHUNK_OVERLAP] at *
          omega
    · rw [splitGo_stop text start (by omega)]
      intro c hc
      cases hc

theorem splitGo_drop_flatten (text : List Char) (start : Nat) :
    ((splitGo text start).map (fun d => d.drop CHUNK_OVERLAP)).flatten =
      text.drop (start + CHUNK_OVERLAP) := by
  generalize hk : text.length - start = k
  induction k using Nat.strong_induction_on generalizing start with
  | _ k ih =>
    by_cases h1 : start < text.length
    · by_cases h2 : text.length ≤ start + CHUNK_SIZE
      · rw [splitGo_last text start h1 h2]
        simp only [List.map_cons, List.map_nil, List.flatten_cons, List.flatten_nil,
          List.append_nil, List.drop_drop]
      · push_neg at h2
        rw [splitGo_step text start h2]
        simp only [List.map_cons, List.flatten_cons]
        rw [ih (text.length - (start + CHUNK_SIZE - CHUNK_OVERLAP))
              (by simp only [CHUNK_SIZE, CHUNK_OVERLAP] at *; omega) _ rfl]
        have harith : start + CHUNK_SIZE - CHUNK_OVERLAP + CHUNK_OVERLAP =
            start + CHUNK_SIZE := by
          simp only [CHUNK_SIZE, CHUNK_OVERLAP]
          omega
        rw [harith, List.drop_take, List.drop_drop]
        have hdrop : text.drop (start + CHUNK_SIZE) =
            (text.drop (start + CHUNK_OVERLAP)).drop (CHUNK_SIZE - CHUNK_OVERLAP) := by
          rw [List.drop_drop]
          have harith2 : start + CHUNK_OVERLAP + (CHUNK_SIZE - CHUNK_OVERLAP) =
              start + CHUNK_SIZE := by
            simp only [CHUNK_SIZE, CHUNK_OVERLAP]
            try omega
          rw [harith2]
        rw [hdrop]
        exact List.take_append_drop _ _
    · push_neg at h1
      rw [splitGo_stop text start h1]
      simp only [List.map_nil, List.flatten_nil]
      rw [List.drop_eq_nil_of_le (by omega)]

theorem uniqueSpans_splitGo (text : List Char) (start : Nat) :
    uniqueSpans (splitGo text start) = text.drop start := by
  by_cases h1 : start < text.length
  · by_cases h2 : text.length ≤ start + CHUNK_SIZE
    · rw [splitGo_last text start h1 h2]
      show text.drop start ++ (([] : List (List Char)).map _).flatten = text.drop start
      simp
    · push_neg at h2
      rw [splitGo_step text start h2]
      show (text.drop start).take CHUNK_SIZE ++
        ((splitGo text (start + CHUNK_SIZE - CHUNK_OVERLAP)).map
          (fun d => d.drop CHUNK_OVERLAP)).flatten = text.drop start
      rw [splitGo_drop_flatten]
      have harith : start + CHUNK_SIZE - CHUNK_OVERLAP + CHUNK_OVERLAP =
          start + CHUNK_SIZE := by
        simp only [CHUNK_SIZE, CHUNK_OVERLAP]
        omega
      rw [harith]
      have hdrop : text.drop (start + CHUNK_SIZE) =
          (text.drop start).drop CHUNK_SIZE := by
        rw [List.drop_drop]
      rw [hdrop]
      exact List.take_append_drop _ _
  · push_neg at h1
    rw [splitGo_stop text start h1, List.drop_eq_nil_of_le (by omega)]
    rfl

theorem splitGo_chain (text : List Char) (start : Nat) :
    List.Chain' (fun a b : List Char =>
      a.length = CHUNK_SIZE ∧ CHUNK_OVERLAP < b.length ∧
      a.drop (a.length - CHUNK_OVERLAP) = b.take CHUNK_OVERLAP)
      (splitGo text start) := by
  generalize hk : text.length - start = k
  induction k using Nat.strong_induction_on generalizing start with
  | _ k ih =>
    by_cases h1 : start < text.length
    · by_cases h2 : text.length ≤ start + CHUNK_SIZE
      · rw [splitGo_last text start h1 h2]
        exact List.chain'_singleton _
      · push_neg at h2
        rw [splitGo_step text start h2]
        have hnext : start + CHUNK_SIZE - CHUNK_OVERLAP < text.length := by
          simp only [CHUNK_SIZE, CHUNK_OVERLAP] at *
          omega
        have hchunklen : ((text.drop start).take CHUNK_SIZE).length = CHUNK_SIZE := by
          simp only [List.length_take, List.length_drop]
          simp only [CHUNK_SIZE] at *
          omega
        refine List.chain'_cons'.mpr ⟨?_, ?_⟩
        · intro b hb
          by_cases h3 : text.length ≤ start + CHUNK_SIZE - CHUNK_OVERLAP + CHUNK_SIZE
          · rw [splitGo_last text _ hnext h3] at hb
            simp only [List.head?_cons, Option.mem_def, Option.some.injEq] at hb
            subst hb
            refine ⟨hchunklen, ?_, ?_⟩
            · simp only [List.length_drop]
              simp only [CHUNK_SIZE, CHUNK_OVERLAP] at *
              omega
            · rw [hchunklen, chunk_drop_overlap]
          · push_neg at h3
            rw [splitGo_step text _ h3] at hb
            simp only [List.head?_cons, Option.mem_def, Option.some.injEq] at hb
            subst hb
            refine ⟨hchunklen, ?_, ?_⟩
            · simp only [List.length_take, List.length_drop]
              simp only [CHUNK_SIZE, CHUNK_OVERLAP] at *
              omega
            · rw [hchunklen, chunk_drop_overlap, List.take_take]
              have hmin : CHUNK_OVERLAP ⊓ CHUNK_SIZE = CHUNK_OVERLAP := by decide
              rw [hmin]
        · refine ih (text.length - (start + CHUNK_SIZE - CHUNK_OVERLAP)) ?_ _ rfl
          simp only [CHUNK_SIZE, CHUNK_OVERLAP] at *
          omega
    · rw [splitGo_stop text start (by omega)]
      exact List.chain'_nil

theorem validate_document_short (o : Oracle) (engine : String)
    (doc : DocumentHighDetails) (s : String)
    (hc : doc.content = some s)
    (ho : intFalsy doc.owner_id = false)
    (hs : s.data ≠ [])
    (hst : (pyStrip s).data ≠ [])
    (hlen : s.data.length ≤ CHUNK_SIZE) :
    validate_document o engine doc = (some [s], []) := by
  have h1 : strFalsy (some s) = false := by
    cases hd : s.data with
    | nil => exact absurd hd hs
    | cons x xs =>
        show s.data.isEmpty = false
        rw [hd]
        rfl
  have h2 : (pyStrip s).data.isEmpty = false := by
    cases hd : (pyStrip s).data with
    | nil => exact absurd hd hst
    | cons _ _ => rfl
  have h3 : split_text s = [s] := split_text_short s hs hlen
  unfold validate_document
  rw [hc]
  simp only [Option.getD_some, ho, h1, h2, h3, Bool.or_self, Bool.false_eq_true,
    if_false, List.isEmpty_cons]

/-! ## Claim theorems -/

/-- C1: for every document whose owner id is missing or Python-falsy, a
sync pass issues no upsert for it, issues exactly one delete scoped to the
document's source and document id (retracting it from the index), and the
per-document outcome is a skip, not an error. -/
theorem c1_owner_missing_retracts (o : Oracle) (engine : String)
    (rh : List (String × String)) (doc : DocumentHighDetails)
    (h : intFalsy doc.owner_id = true) :
    sync_document o engine rh doc =
      (SyncOutcome.skipped, [Event.deleteCall ⟨engine, PyVal.vint doc.id⟩]) := by
  have hv : validate_document o engine doc =
      (none, [Event.deleteCall ⟨engine, PyVal.vint doc.id⟩]) := by
    unfold validate_document
    rw [if_pos h, delete_document_vectors_eq]
  exact sync_document_validate_none o engine rh doc _ hv

/-- Witness for C1 at a concrete ownerless document and an all-ok oracle. -/
theorem c1_owner_missing_retracts_witness :
    intFalsy doc_no_owner.owner_id = true ∧
    sync_document oracle_all_ok "paperless" [] doc_no_owner =
      (SyncOutcome.skipped, [Event.deleteCall ⟨"paperless", PyVal.vint 7⟩]) :=
  ⟨by decide,
   c1_owner_missing_retracts oracle_all_ok "paperless" [] doc_no_owner (by decide)⟩

/-- C10: the retraction delete of an ineligible document never raises:
even when the scoped delete fails, the document is reported as a skip (no
error), and the issued trace is exactly that one delete call. -/
theorem c10_retraction_delete_swallowed (o : Oracle) (engine : String)
    (rh : List (String × String)) (doc : DocumentHighDetails)
    (tr : List Event) (e : String)
    (hv : validate_document o engine doc = (none, tr))
    (_hd : o.deletePoints ⟨engine, PyVal.vint doc.id⟩ = Except.error e) :
    sync_document o engine rh doc = (SyncOutcome.skipped, tr) ∧
    tr = [Event.deleteCall ⟨engine, PyVal.vint doc.id⟩] :=
  ⟨sync_document_validate_none o engine rh doc tr hv,
   validate_document_none_trace o engine doc tr hv⟩

/-- Witness for C10 at a concrete ownerless document and an oracle whose
delete endpoint always raises. -/
theorem c10_retraction_delete_swallowed_witness :
    validate_document oracle_delete_fails "paperless" doc_no_owner =
      (none, [Event.deleteCall ⟨"paperless", PyVal.vint 7⟩]) ∧
    oracle_delete_fails.deletePoints ⟨"paperless", PyVal.vint 7⟩ =
      Except.error "delete failed" ∧
    sync_document oracle_delete_fails "paperless" [] doc_no_owner =
      (SyncOutcome.skipped, [Event.deleteCall ⟨"paperless", PyVal.vint 7⟩]) :=
  ⟨by decide, rfl,
   (c10_retraction_delete_swallowed oracle_delete_fails "paperless" [] doc_no_owner
      [Event.deleteCall ⟨"paperless", PyVal.vint 7⟩] "delete failed"
      (by decide) rfl).1⟩

/-- C4: a validated document whose fresh fingerprint equals the one
pre-loaded for its id produces no collaborator call at all (in particular
zero embedding calls and zero upserts) and is reported as skipped. -/
theorem c4_unchanged_skips (o : Oracle) (engine : String)
    (rh : List (String × String)) (doc : DocumentHighDetails)
    (ch : List String) (tr : List Event)
    (hv : validate_document o engine doc = (some ch, tr))
    (hh : dictGet rh (toString doc.id) = some (compute_doc_hash doc)) :
    sync_document o engine rh doc = (SyncOutcome.skipped, []) := by
  have htr := validate_document_some_trace o engine doc ch tr hv
  subst htr
  exact sync_document_unchanged_eq o engine rh doc ch [] hv hh

/-- Witness for C4 at a concrete document whose fingerprint is on file. -/
theorem c4_unchanged_skips_witness :
    validate_document oracle_all_ok "paperless" doc_unchanged =
      (some ["hello world"], []) ∧
    dictGet rh_unchanged (toString doc_unchanged.id) =
      some (compute_doc_hash doc_unchanged) ∧
    sync_document oracle_all_ok "paperless" rh_unchanged doc_unchanged =
      (SyncOutcome.skipped, []) := by
  have hv : validate_document oracle_all_ok "paperless" doc_unchanged =
      (some ["hello world"], []) :=
    validate_document_short oracle_all_ok "paperless" doc_unchanged "hello world"
      rfl (by decide) (by decide) (by decide) (by decide)
  exact ⟨hv, rfl,
    c4_unchanged_skips oracle_all_ok "paperless" rh_unchanged doc_unchanged
      ["hello world"] [] hv rfl⟩

/-- C2 (code-bug demonstration): with indexed payload document ids 1, 2, 3
for source `x` and the integer id set {1, 3} exactly as `do_sync` passes
it, reconciliation issues scoped deletes for ALL three indexed ids — the
stringified index ids never equal the integer source ids, so the set
difference removes nothing and the still-present documents 1 and 3 are
deleted too, contrary to the claim. -/
theorem c2_cleanup_deletes_present_documents :
    cleanup_orphans oracle_orphan_demo "x" [PyVal.vint 1, PyVal.vint 3] =
      [Event.deleteCall ⟨"x", PyVal.vstr "1"⟩,
       Event.deleteCall ⟨"x", PyVal.vstr "2"⟩,
       Event.deleteCall ⟨"x", PyVal.vstr "3"⟩] ∧
    (do_sync oracle_orphan_demo "x" [docA, docB]).cleanupEvents =
      cleanup_orphans oracle_orphan_demo "x" [PyVal.vint 1, PyVal.vint 3] :=
  ⟨by decide, rfl⟩

/-- C9: when the fingerprint pre-load scroll raises, the pass is not
aborted: the map is empty, every document still runs through the pipeline,
and every validated document is embedded (never skipped as unchanged). -/
theorem c9_hash_load_failure_resyncs (o : Oracle) (engine : String)
    (docs : List DocumentHighDetails) (e : String)
    (h : o.scrollHashes = Except.error e) :
    load_rag_hashes o = [] ∧
    (do_sync o engine docs).results =
      docs.map (fun d => sync_document o engine [] d) ∧
    (∀ doc ch tr, validate_document o engine doc = (some ch, tr) →
       (sync_document o engine [] doc).1 ≠ SyncOutcome.skipped ∧
       Event.embedCall ch ∈ (sync_document o engine [] doc).2) := by
  have hlr : load_rag_hashes o = [] := by
    unfold load_rag_hashes
    rw [h]
  refine ⟨hlr, ?_, ?_⟩
  · unfold do_sync
    cases docs with
    | nil => rfl
    | cons d ds =>
        simp only [List.isEmpty_cons, if_false, Bool.false_eq_true]
        rw [hlr]
  · intro doc ch tr hv
    have htr := validate_document_some_trace o engine doc ch tr hv
    subst htr
    have hne : dictGet [] (toString doc.id) ≠ some (compute_doc_hash doc) := by
      intro hcon
      simp [dictGet, List.find?] at hcon
    cases he : o.embed ch with
    | error e' =>
        rw [sync_document_embed_error o engine [] doc ch [] e' hv hne he]
        refine ⟨by simp, by simp⟩
    | ok vs =>
        cases hd : o.deletePoints ⟨engine, PyVal.vint doc.id⟩ with
        | error e' =>
            rw [sync_document_delete_error o engine [] doc ch [] vs e' hv hne he hd]
            refine ⟨by simp, by simp⟩
        | ok u =>
            cases u
            cases hb : build_points engine doc ch vs (compute_doc_hash doc) with
            | error e' =>
                rw [sync_document_build_error o engine [] doc ch [] vs e' hv hne he hd hb]
                refine ⟨by simp, by simp⟩
            | ok pts =>
                rw [sync_document_build_ok o engine [] doc ch [] vs pts hv hne he hd hb]
                constructor
                · cases hup : (upsert_batches o (groupsOf UPSERT_BATCH_SIZE pts)).1 <;>
                    simp [hup]
                · simp

/-- Witness for C9 at a concrete failing-scroll oracle and document. -/
theorem c9_hash_load_failure_resyncs_witness :
    oracle_scroll_fails.scrollHashes = Except.error "scroll failed" ∧
    validate_document oracle_scroll_fails "paperless" docB = (some ["beta"], []) ∧
    (sync_document oracle_scroll_fails "paperless" [] docB).1 ≠ SyncOutcome.skipped ∧
    Event.embedCall ["beta"] ∈ (sync_document oracle_scroll_fails "paperless" [] docB).2 := by
  have hv : validate_document oracle_scroll_fails "paperless" docB = (some ["beta"], []) :=
    validate_document_short oracle_scroll_fails "paperless" docB "beta"
      rfl (by decide) (by decide) (by decide) (by decide)
  exact ⟨rfl, hv,
    ((c9_hash_load_failure_resyncs oracle_scroll_fails "paperless" [docB] "scroll failed"
        rfl).2.2 docB ["beta"] [] hv).1,
    ((c9_hash_load_failure_resyncs oracle_scroll_fails "paperless" [docB] "scroll failed"
        rfl).2.2 docB ["beta"] [] hv).2⟩

/-- C3 (code-bug demonstration): the failure legs of the claimed order
hold — an embedding failure issues no delete and no upsert and surfaces
the error, and a delete failure issues no upsert and surfaces the error —
but the claimed success continuation is unreachable: after a successful
delete-stale, constructing the first `VectorPoint` payload raises a
pydantic validation error (the integer `doc.id` is passed to the
`str`-typed `dms_doc_id` field, likewise `owner_id`), so every eligible
changed document with at least one (chunk, vector) pair errors with its
stale points already deleted and no new points are ever written. -/
theorem c3_pipeline_order_build_raises (o : Oracle) (engine : String)
    (rh : List (String × String)) (doc : DocumentHighDetails)
    (ch : List String) (tr : List Event)
    (hv : validate_document o engine doc = (some ch, tr))
    (hne : dictGet rh (toString doc.id) ≠ some (compute_doc_hash doc)) :
    (∀ e, o.embed ch = Except.error e →
       sync_document o engine rh doc =
         (SyncOutcome.error e, [Event.embedCall ch])) ∧
    (∀ vs e, o.embed ch = Except.ok vs →
       o.deletePoints ⟨engine, PyVal.vint doc.id⟩ = Except.error e →
       sync_document o engine rh doc =
         (SyncOutcome.error e,
          [Event.embedCall ch, Event.deleteCall ⟨engine, PyVal.vint doc.id⟩])) ∧
    (∀ vs, o.embed ch = Except.ok vs →
       o.deletePoints ⟨engine, PyVal.vint doc.id⟩ = Except.ok () →
       ch.zip vs ≠ [] →
       sync_document o engine rh doc =
         (SyncOutcome.error "dms_doc_id: Input should be a valid string",
          [Event.embedCall ch, Event.deleteCall ⟨engine, PyVal.vint doc.id⟩])) := by
  have htr := validate_document_some_trace o engine doc ch tr hv
  subst htr
  refine ⟨?_, ?_, ?_⟩
  · intro e he
    simpa using sync_document_embed_error o engine rh doc ch [] e hv hne he
  · intro vs e he hd
    simpa using sync_document_delete_error o engine rh doc ch [] vs e hv hne he hd
  · intro vs he hd hz
    simpa using sync_document_build_error o engine rh doc ch [] vs _ hv hne he hd
      (build_points_raises engine doc ch vs (compute_doc_hash doc) hz)

/-- Witness for C3: a concrete valid changed document on the all-ok
oracle — embedding and delete-stale succeed, then the payload
construction raises, so the trace is exactly the embed and the delete
call and the outcome is the validation error. -/
theorem c3_pipeline_order_build_raises_witness :
    validate_document oracle_all_ok "paperless" docB = (some ["beta"], []) ∧
    oracle_all_ok.embed ["beta"] = Except.ok [[0]] ∧
    sync_document oracle_all_ok "paperless" [] docB =
      (SyncOutcome.error "dms_doc_id: Input should be a valid string",
       [Event.embedCall ["beta"], Event.deleteCall ⟨"paperless", PyVal.vint 3⟩]) := by
  have hv : validate_document oracle_all_ok "paperless" docB = (some ["beta"], []) :=
    validate_document_short oracle_all_ok "paperless" docB "beta"
      rfl (by decide) (by decide) (by decide) (by decide)
  exact ⟨hv, rfl,
    (c3_pipeline_order_build_raises oracle_all_ok "paperless" [] docB ["beta"] [] hv
        (by simp [dictGet])).2.2 [[0]] rfl rfl (by decide)⟩

/-- C5 (code-bug demonstration): per-document isolation holds — document
A's embedding failure does not prevent document B's pipeline from running
(B still embeds and deletes its stale points) — but the claimed
conclusion is false of the program: B's payload construction raises the
pydantic validation error, so B's points are never written and the
two-document pass reports two errors and zero synced instead of one error
and one success; no upsert is issued anywhere in the pass. -/
theorem c5_isolation_two_errors :
    (do_sync oracle_embed_split "paperless" [docA, docB]).results =
      [(SyncOutcome.error "embed down", [Event.embedCall ["alpha"]]),
       (SyncOutcome.error "dms_doc_id: Input should be a valid string",
        [Event.embedCall ["beta"], Event.deleteCall ⟨"paperless", PyVal.vint 3⟩])] ∧
    (do_sync oracle_embed_split "paperless" [docA, docB]).synced = 0 ∧
    (do_sync oracle_embed_split "paperless" [docA, docB]).skipped = 0 ∧
    (do_sync oracle_embed_split "paperless" [docA, docB]).errors = 2 ∧
    upserted_points ((do_sync oracle_embed_split "paperless" [docA, docB]).results.flatMap
      (fun r => r.2)) = [] := by
  have hA1 : validate_document oracle_embed_split "paperless" docA = (some ["alpha"], []) :=
    validate_document_short oracle_embed_split "paperless" docA "alpha"
      rfl (by decide) (by decide) (by decide) (by decide)
  have hB1 : validate_document oracle_embed_split "paperless" docB = (some ["beta"], []) :=
    validate_document_short oracle_embed_split "paperless" docB "beta"
      rfl (by decide) (by decide) (by decide) (by decide)
  have hlr : load_rag_hashes oracle_embed_split = [] := rfl
  have hAh : dictGet (load_rag_hashes oracle_embed_split) (toString docA.id) ≠
      some (compute_doc_hash docA) := by
    rw [hlr]
    simp [dictGet]
  have hBh : dictGet (load_rag_hashes oracle_embed_split) (toString docB.id) ≠
      some (compute_doc_hash docB) := by
    rw [hlr]
    simp [dictGet]
  have hA : sync_document oracle_embed_split "paperless"
      (load_rag_hashes oracle_embed_split) docA =
      (SyncOutcome.error "embed down", [Event.embedCall ["alpha"]]) := by
    simpa using sync_document_embed_error oracle_embed_split "paperless"
      (load_rag_hashes oracle_embed_split) docA ["alpha"] [] "embed down" hA1 hAh rfl
  have hB : sync_document oracle_embed_split "paperless"
      (load_rag_hashes oracle_embed_split) docB =
      (SyncOutcome.error "dms_doc_id: Input should be a valid string",
       [Event.embedCall ["beta"], Event.deleteCall ⟨"paperless", PyVal.vint 3⟩]) := by
    simpa using sync_document_build_error oracle_embed_split "paperless"
      (load_rag_hashes oracle_embed_split) docB ["beta"] [] [[1]] _ hB1 hBh rfl rfl
      (build_points_raises "paperless" docB ["beta"] [[1]] (compute_doc_hash docB)
        (by decide))
  have hres : (do_sync oracle_embed_split "paperless" [docA, docB]).results =
      [(SyncOutcome.error "embed down", [Event.embedCall ["alpha"]]),
       (SyncOutcome.error "dms_doc_id: Input should be a valid string",
        [Event.embedCall ["beta"], Event.deleteCall ⟨"paperless", PyVal.vint 3⟩])] := by
    show ([docA, docB].map (fun doc => sync_document oracle_embed_split "paperless"
      (load_rag_hashes oracle_embed_split) doc)) = _
    rw [List.map_cons, List.map_cons, List.map_nil, hA, hB]
  refine ⟨hres, ?_, ?_, ?_, ?_⟩
  · show (([docA, docB].map (fun doc => sync_document oracle_embed_split "paperless"
      (load_rag_hashes oracle_embed_split) doc)).filter
      (fun r => r.1 == SyncOutcome.synced)).length = 0
    rw [List.map_cons, List.map_cons, List.map_nil, hA, hB]
    rfl
  · show (([docA, docB].map (fun doc => sync_document oracle_embed_split "paperless"
      (load_rag_hashes oracle_embed_split) doc)).filter
      (fun r => r.1 == SyncOutcome.skipped)).length = 0
    rw [List.map_cons, List.map_cons, List.map_nil, hA, hB]
    rfl
  · show (([docA, docB].map (fun doc => sync_document oracle_embed_split "paperless"
      (load_rag_hashes oracle_embed_split) doc)).filter
      (fun r => match r.1 with | SyncOutcome.error _ => true | _ => false)).length = 2
    rw [List.map_cons, List.map_cons, List.map_nil, hA, hB]
    rfl
  · rw [hres]
    rfl

/-- C7: with `CHUNK_SIZE = 1000` and `CHUNK_OVERLAP = 100`, every chunk is
non-empty and at most 1000 characters; each consecutive pair overlaps in
exactly the 100 positions where the earlier (full-size) chunk ends and the
later chunk (longer than 100 characters) begins; concatenating the unique
non-overlapping spans reconstructs the text; and empty text yields no
chunks. -/
theorem c7_chunker_spec (text : String) :
    (∀ c ∈ split_text text, c ≠ "" ∧ c.length ≤ CHUNK_SIZE) ∧
    List.Chain' (fun a b : String =>
      a.length = CHUNK_SIZE ∧ CHUNK_OVERLAP < b.length ∧
      a.data.drop (a.length - CHUNK_OVERLAP) = b.data.take CHUNK_OVERLAP)
      (split_text text) ∧
    uniqueSpans ((split_text text).map String.data) = text.data ∧
    (text = "" → split_text text = []) := by
  refine ⟨?_, ?_, ?_, ?_⟩
  · intro c hc
    rw [split_text_eq] at hc
    obtain ⟨a, ha, rfl⟩ := List.mem_map.mp hc
    have hs := splitGo_chunks_sound text.data 0 a ha
    refine ⟨fun hnil => ?_, hs.2⟩
    exact hs.1 (congrArg String.data hnil)
  · rw [split_text_eq, List.chain'_map]
    exact splitGo_chain text.data 0
  · rw [split_text_eq, List.map_map]
    have hcomp : String.data ∘ String.mk = id := funext (fun l => rfl)
    rw [hcomp, List.map_id]
    have := uniqueSpans_splitGo text.data 0
    rwa [List.drop_zero] at this
  · intro h
    subst h
    rfl

/-- Witness for C7 at the concrete text "ab" (membership hypothesis) and
the empty text (emptiness hypothesis). -/
theorem c7_chunker_spec_witness :
    ("ab" ≠ "" ∧ ("ab" : String).length ≤ CHUNK_SIZE) ∧ split_text "" = [] := by
  have hmem : "ab" ∈ split_text "ab" := by
    rw [split_text_short "ab" (by decide) (by decide)]
    exact List.mem_singleton.mpr rfl
  exact ⟨(c7_chunker_spec "ab").1 "ab" hmem, (c7_chunker_spec "").2.2.2 rfl⟩

/-- C8 counterexample: the chunker maps the whitespace-only text " " to
the single whitespace chunk [" "], not to the empty list the claim
states. -/
theorem c8_whitespace_counterexample :
    split_text " " = [" "] ∧ split_text " " ≠ [] := by
  have h := split_text_short " " (by decide) (by decide)
  refine ⟨h, ?_⟩
  rw [h]
  simp

/-- C8 (amended): the chunker returns the empty sequence exactly for the
empty text — any non-empty text, whitespace-only included, yields at least
one chunk — and it is the validator's content-strip check that rejects
whitespace-only documents before chunking (returning ineligible). -/
theorem c8_empty_only_amended :
    (∀ t : String, t = "" → split_text t = []) ∧
    (∀ s : String, s ≠ "" → split_text s ≠ []) ∧
    (∀ (o : Oracle) (engine : String) (doc : DocumentHighDetails) (s : String),
       doc.content = some s → (pyStrip s).data = [] →
       (validate_document o engine doc).1 = none) := by
  refine ⟨?_, ?_, ?_⟩
  · intro t h
    subst h
    rfl
  · intro s hs hcontra
    have hdata : s.data ≠ [] := fun hd => hs (String.ext hd)
    have hpos : 0 < s.data.length := by
      cases hd : s.data with
      | nil => exact absurd hd hdata
      | cons x xs => simp
    rw [split_text_eq] at hcontra
    exact splitGo_ne_nil s.data 0 hpos (List.map_eq_nil_iff.mp hcontra)
  · intro o engine doc s hc hstrip
    unfold validate_document
    by_cases ho : intFalsy doc.owner_id
    · rw [if_pos ho]
    · rw [if_neg ho, hc]
      have hb : (strFalsy (some s) || (pyStrip ((some s).getD "")).data.isEmpty) = true := by
        simp only [Option.getD_some, hstrip, List.isEmpty_nil, Bool.or_true]
      rw [if_pos hb]

/-- Witness for C8's amended claim at the empty text, the single-space
text, and a whitespace-only document. -/
theorem c8_empty_only_amended_witness :
    split_text "" = [] ∧ split_text " " ≠ [] ∧
    (validate_document oracle_all_ok "paperless" doc_ws).1 = none :=
  ⟨c8_empty_only_amended.1 "" rfl,
   c8_empty_only_amended.2.1 " " (by decide),
   c8_empty_only_amended.2.2 oracle_all_ok "paperless" doc_ws " " rfl (by decide)⟩

/-- C6 counterexample: two documents that differ in both content and title
share a fingerprint, because the pipe-joined hash input of
(content "a|b", title "c") equals that of (content "a", title "b|c"). -/
theorem c6_fingerprint_collision_counterexample :
    compute_doc_hash doc_sep_a = compute_doc_hash doc_sep_b ∧
    doc_sep_a.content ≠ doc_sep_b.content ∧
    doc_sep_a.title ≠ doc_sep_b.title := by
  refine ⟨?_, by decide, by decide⟩
  have h : compute_doc_hash_input doc_sep_a = compute_doc_hash_input doc_sep_b := by
    decide
  exact congrArg sha256Hex h

/-- C6 (amended): the fingerprint is a pure deterministic function of the
six hashed fields — reordering the label-id list never changes it, absent
fields serialize to the empty string (all-absent input is exactly the five
separators), and equal hashed fields always give equal fingerprints — but
documents differing in a hashed field can still collide when field values
contain the `|` separator, so a changed hashed field does not always
change the fingerprint. -/
theorem c6_fingerprint_amended :
    (∀ doc : DocumentHighDetails, compute_doc_hash doc = compute_doc_hash doc) ∧
    (∀ (doc : DocumentHighDetails) (ids : List Int), ids.Perm doc.tag_ids →
       compute_doc_hash { doc with tag_ids := ids } = compute_doc_hash doc) ∧
    (∀ doc : DocumentHighDetails, doc.content = none → doc.title = none →
       doc.owner_id = none → doc.tag_ids = [] → doc.correspondent_id = none →
       doc.document_type_id = none → compute_doc_hash_input doc = "|||||") ∧
    (∀ d1 d2 : DocumentHighDetails, d1.content = d2.content → d1.title = d2.title →
       d1.owner_id = d2.owner_id → d1.tag_ids = d2.tag_ids →
       d1.correspondent_id = d2.correspondent_id →
       d1.document_type_id = d2.document_type_id →
       compute_doc_hash d1 = compute_doc_hash d2) := by
  refine ⟨fun _ => rfl, ?_, ?_, ?_⟩
  · intro doc ids h
    have hperm : (ids.map toString).Perm (doc.tag_ids.map toString) := h.map toString
    haveI : IsAntisymm String (fun a b : String => a ≤ b) :=
      ⟨fun _ _ h1 h2 => le_antisymm h1 h2⟩
    haveI : IsTotal String (fun a b : String => a ≤ b) := ⟨fun a b => le_total a b⟩
    haveI : IsTrans String (fun a b : String => a ≤ b) :=
      ⟨fun _ _ _ h1 h2 => le_trans h1 h2⟩
    have hsorted : List.insertionSort (fun a b : String => a ≤ b) (ids.map toString) =
        List.insertionSort (fun a b : String => a ≤ b) (doc.tag_ids.map toString) := by
      have hs1 : List.Sorted (fun a b : String => a ≤ b)
          (List.insertionSort (fun a b : String => a ≤ b) (ids.map toString)) :=
        List.sorted_insertionSort _ _
      have hs2 : List.Sorted (fun a b : String => a ≤ b)
          (List.insertionSort (fun a b : String => a ≤ b) (doc.tag_ids.map toString)) :=
        List.sorted_insertionSort _ _
      exact List.eq_of_perm_of_sorted
        ((List.perm_insertionSort _ _).trans
          (hperm.trans (List.perm_insertionSort _ _).symm)) hs1 hs2
    have hinput : compute_doc_hash_input { doc with tag_ids := ids } =
        compute_doc_hash_input doc := by
      unfold compute_doc_hash_input
      dsimp only []
      rw [hsorted]
    exact congrArg sha256Hex hinput
  · intro doc h1 h2 h3 h4 h5 h6
    unfold compute_doc_hash_input
    rw [h1, h2, h3, h4, h5, h6]
    rfl
  · intro d1 d2 h1 h2 h3 h4 h5 h6
    have hinput : compute_doc_hash_input d1 = compute_doc_hash_input d2 := by
      unfold compute_doc_hash_input
      rw [h1, h2, h3, h4, h5, h6]
    exact congrArg sha256Hex hinput

/-- Witness for C6's amended claim: a concrete label reordering, the
all-absent document, and a change in a non-hashed field (resolved tag
names) leaving the fingerprint untouched. -/
theorem c6_fingerprint_amended_witness :
    compute_doc_hash { doc_tags with tag_ids := [10, 2] } = compute_doc_hash doc_tags ∧
    compute_doc_hash_input ({ id := 0 } : DocumentHighDetails) = "|||||" ∧
    compute_doc_hash doc_tags =
      compute_doc_hash { doc_tags with tags := [{ id := 1, name := some "x" }] } :=
  ⟨c6_fingerprint_amended.2.1 doc_tags [10, 2] (by decide),
   c6_fingerprint_amended.2.2.1 { id := 0 } rfl rfl rfl rfl rfl rfl,
   c6_fingerprint_amended.2.2.2 doc_tags _ rfl rfl rfl rfl rfl rfl⟩

end PaperlessBridge
